import Mathlib

/-!
Verification development for the Albert-perceiver model code (models.py).

The development has two layers, both translated from the source:

* a shape semantics: every tensor operation used by the forward pass is
  modelled as a function from input shapes (lists of dimension sizes) to
  an optional output shape, returning none exactly where the torch
  operation raises.  The embedding lookups additionally carry their index
  data, since their failure is data dependent.

* a value semantics: tensor values are modelled as rational valued
  functions of their (unbounded) indices, with every dimension that the
  source reads off a tensor passed explicitly.  The numeric primitives
  that the source takes from the tensor library (exp, erf, sqrt) are
  opaque parameters collected in a record, so every statement below is
  quantified over them.
-/

/-- Configuration record, from class Config in models.py (a NamedTuple with
defaults; all fields are integers). -/
structure Config where
  vocab_size : Nat := 30000
  hidden : Nat := 384
  hidden_ff : Nat := 640
  embedding : Nat := 64
  n_layers : Nat := 6
  n_heads : Nat := 12
  max_len : Nat := 256
  n_segments : Nat := 2
  M : Nat := 256
  C : Nat := 384
  N : Nat := 128
  D : Nat := 384
  cross_heads : Nat := 1
  latent_heads : Nat := 8
  cross_dim_head : Nat := 32
  latent_dim_head : Nat := 32
  ffw : Nat := 640
  process_layers : Nat := 12

/-! ## Shape semantics -/

/-- A tensor shape: the list of dimension sizes, outermost first. -/
abbrev Shape := List Nat

/-- Shape rule of torch nn.Linear with in_features inF and out_features outF:
the last axis must equal inF and becomes outF; rank zero input is refused. -/
def linearShape (inF outF : Nat) : Shape → Option Shape
  | [] => none
  | [d] => if d = inF then some [outF] else none
  | d :: rest => (linearShape inF outF rest).map (fun r => d :: r)

/-- Modelled from the spec: split_last, imported from the missing utils module
of the repository.  Per the spec each projection is split along the last
feature axis into the given number of head groups of equal width, so the
reshape is defined exactly when the group count is positive and the product
heads * (last / heads) restores the last axis. -/
def splitLastShape (heads : Nat) : Shape → Option Shape
  | [] => none
  | [d] => if 0 < heads ∧ heads * (d / heads) = d then some [heads, d / heads] else none
  | d :: rest => (splitLastShape heads rest).map (fun r => d :: r)

/-- Modelled from the spec: merge_last h 2, imported from the missing utils
module of the repository.  Per the spec the per head results are recombined
along the feature axis, so the last two axes collapse into their product. -/
def mergeLast2Shape : Shape → Option Shape
  | [h, w] => some [h * w]
  | [] => none
  | [_] => none
  | d :: rest => (mergeLast2Shape rest).map (fun r => d :: r)

/-- Shape rule of Tensor.transpose (-2, -3): swap the last-but-one and
last-but-two axes; needs rank at least three. -/
def transposeNeg23Shape : Shape → Option Shape
  | [a, b, c] => some [b, a, c]
  | [] => none
  | [_] => none
  | [_, _] => none
  | d :: rest => (transposeNeg23Shape rest).map (fun r => d :: r)

/-- Shape rule of Tensor.transpose (-2, -1): swap the last two axes. -/
def transposeLast2Shape : Shape → Option Shape
  | [a, b] => some [b, a]
  | [] => none
  | [_] => none
  | d :: rest => (transposeLast2Shape rest).map (fun r => d :: r)

/-- Shape rule of Tensor.transpose (1, 2): swap the second and third axes
counting from the front; needs rank at least three. -/
def transposeShape12 : Shape → Option Shape
  | a :: b :: c :: rest => some (a :: c :: b :: rest)
  | _ => none

/-- One broadcast step on a pair of dimension sizes (torch semantics):
a size one dimension stretches to the other size, otherwise the sizes
must agree. -/
def broadcastDim : Nat → Nat → Option Nat
  | 1, b => some b
  | a, 1 => some a
  | a, b => if a = b then some a else none

/-- Broadcast of two reversed shapes (innermost axis first); the shorter
one is implicitly padded with leading ones, per torch semantics. -/
def broadcastRev : List Nat → List Nat → Option (List Nat)
  | [], t => some t
  | s, [] => some s
  | a :: s, b :: t =>
    match broadcastDim a b with
    | some c => (broadcastRev s t).map (fun r => c :: r)
    | none => none

/-- Shape rule of a broadcasting elementwise binary operation (torch
semantics, axes aligned from the right). -/
def broadcastShape (s t : Shape) : Option Shape :=
  (broadcastRev s.reverse t.reverse).map List.reverse

/-- Shape rule of torch.matmul on inputs of rank at least two: the two
trailing axes are matrix axes (the inner sizes must agree), the remaining
batch axes broadcast. -/
def matmulShape (s t : Shape) : Option Shape :=
  match s.reverse, t.reverse with
  | m :: n :: sb, p :: m2 :: tb =>
    if m = m2 then (broadcastRev sb tb).map (fun bt => (p :: n :: bt).reverse) else none
  | _, _ => none

/-- Shape rule of F.softmax over the last axis: the shape is preserved;
rank zero input is refused. -/
def softmaxShape : Shape → Option Shape
  | [] => none
  | s => some s

/-- Shape rule of mask extension mask[:, None, None, :]: defined on rank two
shapes only, inserting two singleton axes. -/
def maskExpandShape : Shape → Option Shape
  | [b, s] => some [b, 1, 1, s]
  | _ => none

/-- Shape rule of torch nn.LayerNorm d applied over the last axis: the last
axis must equal d and the shape is preserved. -/
def layerNormShape (d : Nat) : Shape → Option Shape
  | [] => none
  | [x] => if x = d then some [x] else none
  | x :: rest => (layerNormShape d rest).map (fun r => x :: r)

/-- Semantics of a torch nn.Embedding lookup with numEmb rows and the given
feature width, applied to a B by S grid of indices: it fails exactly when
some present index is out of range, and appends the feature axis. -/
def embeddingLookupShape (numEmb width B S : Nat) (ids : Fin B → Fin S → Nat) : Option Shape :=
  if (∀ i : Fin B, ∀ j : Fin S, ids i j < numEmb) then some [B, S, width] else none

/-- Shape and failure semantics of Embeddings.forward (models.py lines 73-83):
factorized token lookup, linear expansion, position lookup at indices
0..S-1 broadcast over the batch, segment lookup, elementwise sums and the
final nn.LayerNorm over the hidden axis. -/
def embedO (cfg : Config) (B S : Nat) (tokens segs : Fin B → Fin S → Nat) : Option Shape := do
  let e1 ← embeddingLookupShape cfg.vocab_size cfg.embedding B S tokens
  let e2 ← linearShape cfg.embedding cfg.hidden e1
  let p ← embeddingLookupShape cfg.max_len cfg.hidden B S (fun _ j => j.val)
  let sg ← embeddingLookupShape cfg.n_segments cfg.hidden B S segs
  let t1 ← broadcastShape e2 p
  let t2 ← broadcastShape t1 sg
  layerNormShape cfg.hidden t2

/-- Shape and failure semantics of QKVAttention_cross.forward (models.py
lines 110-136) on input shape xs, latent shape ls and optional mask shape:
project q from the latents (D to D) and k, v from the input (C to D), split
each last axis into heads groups, transpose, form the scaled score product,
optionally subtract the expanded mask, softmax, multiply by v, transpose
back and merge the head axes.  The scalar division by sqrt of the head
width does not change shapes. -/
def crossAttentionShapeO (cfg : Config) (heads : Nat) (xs ls : Shape) (mask : Option Shape) :
    Option Shape := do
  let q ← linearShape cfg.D cfg.D ls
  let k ← linearShape cfg.C cfg.D xs
  let v ← linearShape cfg.C cfg.D xs
  let q ← splitLastShape heads q
  let q ← transposeNeg23Shape q
  let k ← splitLastShape heads k
  let k ← transposeNeg23Shape k
  let v ← splitLastShape heads v
  let v ← transposeNeg23Shape v
  let kt ← transposeLast2Shape k
  let sc ← matmulShape q kt
  let sc ← (match mask with
    | some m => do
        let me ← maskExpandShape m
        broadcastShape sc me
    | none => some sc)
  let sc ← softmaxShape sc
  let h ← matmulShape sc v
  let h ← transposeShape12 h
  mergeLast2Shape h

/-- Shape and failure semantics of QKVAttention_self.forward (models.py
lines 149-171): as the cross variant but q, k and v are all projected from
the same input (D to D). -/
def selfAttentionShapeO (cfg : Config) (heads : Nat) (xs : Shape) (mask : Option Shape) :
    Option Shape := do
  let q ← linearShape cfg.D cfg.D xs
  let k ← linearShape cfg.D cfg.D xs
  let v ← linearShape cfg.D cfg.D xs
  let q ← splitLastShape heads q
  let q ← transposeNeg23Shape q
  let k ← splitLastShape heads k
  let k ← transposeNeg23Shape k
  let v ← splitLastShape heads v
  let v ← transposeNeg23Shape v
  let kt ← transposeLast2Shape k
  let sc ← matmulShape q kt
  let sc ← (match mask with
    | some m => do
        let me ← maskExpandShape m
        broadcastShape sc me
    | none => some sc)
  let sc ← softmaxShape sc
  let h ← matmulShape sc v
  let h ← transposeShape12 h
  mergeLast2Shape h

/-- Shape semantics of FeedForward.forward (models.py lines 182-184):
fc2 (gelu (fc1 x)); the elementwise gelu preserves shapes. -/
def feedForwardShape (cfg : Config) (s : Shape) : Option Shape := do
  let a ← linearShape cfg.D cfg.ffw s
  linearShape cfg.ffw cfg.D a

/-- Shape semantics of one latent processing round in Transformer.forward
(models.py lines 237-238): self attention with mask None, residual add,
norm3, feed forward, residual add, norm4. -/
def roundShapeO (cfg : Config) (s : Shape) : Option Shape := do
  let a ← selfAttentionShapeO cfg cfg.latent_heads s none
  let r3 ← broadcastShape a s
  let y ← layerNormShape cfg.D r3
  let f ← feedForwardShape cfg y
  let r4 ← broadcastShape f y
  layerNormShape cfg.D r4

/-- Iterate a failing step: the shape semantics of a counted for loop over a
body that can raise. -/
def iterateOptO (f : Shape → Option Shape) : Nat → Shape → Option Shape
  | 0, s => some s
  | k + 1, s => f s >>= iterateOptO f k

/-- Shape and failure semantics of Transformer.forward (models.py lines
223-242): embed, cross attend into the rank two latent parameter of shape
[N, D], residual add of the latents (broadcast over the batch), norm1, the
cross feed forward block with norm2, then the latent processing rounds.
The loop bound is read as process_layers of the Config the Transformer was
constructed with, which is the documented intent; the source line 235
actually spells the bound cfg.process_layers with cfg a global name that is
never defined in the module. -/
def forwardO (cfg : Config) (B S : Nat) (tokens segs : Fin B → Fin S → Nat)
    (maskSh : Option Shape) : Option Shape := do
  let e ← embedO cfg B S tokens segs
  let c ← crossAttentionShapeO cfg cfg.cross_heads e [cfg.N, cfg.D] maskSh
  let r1 ← broadcastShape c [cfg.N, cfg.D]
  let x1 ← layerNormShape cfg.D r1
  let f ← feedForwardShape cfg x1
  let r2 ← broadcastShape f x1
  let x2 ← layerNormShape cfg.D r2
  iterateOptO (roundShapeO cfg) cfg.process_layers x2

/-! ## Value semantics -/

/-- The numeric primitives the source takes from the tensor library; every
value level statement is quantified over them. -/
structure NumPrims where
  exp : ℚ → ℚ
  erf : ℚ → ℚ
  sqrt : ℚ → ℚ

/-- Parameters of a torch nn.Linear layer: weight indexed by output then
input feature, and a bias. -/
structure LinearP where
  weight : Nat → Nat → ℚ
  bias : Nat → ℚ

/-- Value of nn.Linear with in_features inF on a feature vector:
y o = (sum over i < inF of weight o i * x i) + bias o. -/
def linearApply (inF : Nat) (p : LinearP) (x : Nat → ℚ) : Nat → ℚ :=
  fun o => (∑ i ∈ Finset.range inF, p.weight o i * x i) + p.bias o

/-- gelu from models.py lines 50-52:
x * 0.5 * (1.0 + erf (x / sqrt 2)). -/
def gelu (P : NumPrims) (x : ℚ) : ℚ :=
  x * (1 / 2) * (1 + P.erf (x / P.sqrt 2))

/-- F.softmax over the last axis of length n, at one position of that axis. -/
def softmaxAt (P : NumPrims) (n : Nat) (v : Nat → ℚ) (j : Nat) : ℚ :=
  P.exp (v j) / ∑ j2 ∈ Finset.range n, P.exp (v j2)

/-- The layer normalization formula of the spec, with the epsilon left as a
parameter: per feature vector over the last axis of length d, compute the
mean u and the biased variance s and return
scale * (x - u) / sqrt (s + eps) + shift. -/
def layerNormCore (P : NumPrims) (d : Nat) (eps : ℚ) (scale shift x : Nat → ℚ) : Nat → ℚ :=
  fun i =>
    let u := (∑ j ∈ Finset.range d, x j) / (d : ℚ)
    let s := (∑ j ∈ Finset.range d, (x j - u) ^ 2) / (d : ℚ)
    scale i * ((x i - u) / P.sqrt (s + eps)) + shift i

/-- Value semantics of torch nn.LayerNorm d with its default epsilon, the
normalization the forward pipeline applies (models.py lines 70 and
216-220): y = (x - mean) / sqrt (variance + 1e-5) * weight + bias, mean and
biased variance taken over the last axis.  The epsilon 1e-5 is the
documented torch default, since the source passes none. -/
def nnLayerNorm (P : NumPrims) (d : Nat) (weight bias x : Nat → ℚ) : Nat → ℚ :=
  fun i =>
    let u := (∑ j ∈ Finset.range d, x j) / (d : ℚ)
    let s := (∑ j ∈ Finset.range d, (x j - u) ^ 2) / (d : ℚ)
    (x i - u) / P.sqrt (s + 1 / 100000) * weight i + bias i

/-- Value semantics of the LayerNorm class of models.py lines 85-97, with
its default variance_epsilon 1e-12: u = mean x, s = mean ((x - u)^2),
xn = (x - u) / sqrt (s + eps), result gamma * xn + beta.  This class is
defined in the source but no pipeline component instantiates it. -/
def layerNormModule (P : NumPrims) (d : Nat) (gamma beta x : Nat → ℚ) : Nat → ℚ :=
  fun i =>
    let u := (∑ j ∈ Finset.range d, x j) / (d : ℚ)
    let s := (∑ j ∈ Finset.range d, (x j - u) ^ 2) / (d : ℚ)
    gamma i * ((x i - u) / P.sqrt (s + 1 / 1000000000000)) + beta i

/-- Parameters of the Embeddings module (models.py lines 58-70): the
factorized token table, its linear expansion, the position and segment
tables and the scale and shift of the final nn.LayerNorm. -/
structure EmbeddingsP where
  tok_embed1 : Nat → Nat → ℚ
  tok_embed2 : LinearP
  pos_embed : Nat → Nat → ℚ
  seg_embed : Nat → Nat → ℚ
  norm_gamma : Nat → ℚ
  norm_beta : Nat → ℚ

/-- Value semantics of Embeddings.forward (models.py lines 73-83): the
position index of entry (b, s) is s, from arange (seq_len) unsqueezed and
expanded over the batch; then e = tok_embed2 (tok_embed1 x) + pos_embed pos
+ seg_embed seg, normalized by the nn.LayerNorm of the module. -/
def embedV (P : NumPrims) (cfg : Config) (ep : EmbeddingsP)
    (tokens segs : Nat → Nat → Nat) : Nat → Nat → Nat → ℚ :=
  fun b s =>
    let pos := s
    let e1 := ep.tok_embed1 (tokens b s)
    let e2 := linearApply cfg.embedding ep.tok_embed2 e1
    let e := fun f => e2 f + ep.pos_embed pos f + ep.seg_embed (segs b s) f
    nnLayerNorm P cfg.hidden ep.norm_gamma ep.norm_beta e

/-- Parameters of one QKVAttention module (cross or self variant): the three
projections and the head count the module was constructed with. -/
structure AttnP where
  proj_q : LinearP
  proj_k : LinearP
  proj_v : LinearP
  n_heads : Nat

/-- The width of one attention head: split_last divides the projected last
axis, of size D, into n_heads groups, so the -1 in the split resolves to
D / n_heads. -/
def headWidth (cfg : Config) (ap : AttnP) : Nat := cfg.D / ap.n_heads

/-- The query projection of QKVAttention_cross (models.py line 117), from
the rank two latent tensor: in_features D. -/
def crossQ (cfg : Config) (ap : AttnP) (latent : Nat → Nat → ℚ) : Nat → Nat → ℚ :=
  fun n => linearApply cfg.D ap.proj_q (latent n)

/-- The key projection of QKVAttention_cross (models.py line 117), from the
rank three input tensor: in_features C. -/
def crossK (cfg : Config) (ap : AttnP) (x : Nat → Nat → Nat → ℚ) : Nat → Nat → Nat → ℚ :=
  fun b s => linearApply cfg.C ap.proj_k (x b s)

/-- The value projection of QKVAttention_cross (models.py line 117). -/
def crossV (cfg : Config) (ap : AttnP) (x : Nat → Nat → Nat → ℚ) : Nat → Nat → Nat → ℚ :=
  fun b s => linearApply cfg.C ap.proj_v (x b s)

/-- The scaled dot product scores of QKVAttention_cross (models.py line
123), after split_last and the transposes: entry (b, h, n, s) contracts the
head width axis, the flat feature index of pair (h, w) being h * W + w, and
divides by sqrt of the head width.  The query side carries no batch axis
(the latents are rank two), so torch broadcasts it over b. -/
def crossScoresRaw (P : NumPrims) (cfg : Config) (ap : AttnP)
    (x : Nat → Nat → Nat → ℚ) (latent : Nat → Nat → ℚ) :
    Nat → Nat → Nat → Nat → ℚ :=
  fun _b h n s =>
    (∑ w ∈ Finset.range (headWidth cfg ap),
        crossQ cfg ap latent n (h * headWidth cfg ap + w)
          * crossK cfg ap x _b s (h * headWidth cfg ap + w))
      / P.sqrt ((headWidth cfg ap : ℚ))

/-- The mask extension mask[:, None, None, :] of models.py line 125: the
rank two mask becomes rank four with singleton head and query axes, so its
entry at (b, h, n, s) is mask b s. -/
def maskExpandV (m : Nat → Nat → ℚ) : Nat → Nat → Nat → Nat → ℚ :=
  fun b _h _n s => m b s

/-- The scores of QKVAttention_cross after the optional masking (models.py
lines 124-126): when a mask is supplied, 10000 * (1 - expanded mask) is
subtracted elementwise (broadcast over the singleton axes); with no mask
the raw scores are unchanged. -/
def crossScores (P : NumPrims) (cfg : Config) (ap : AttnP)
    (x : Nat → Nat → Nat → ℚ) (latent : Nat → Nat → ℚ)
    (mask : Option (Nat → Nat → ℚ)) : Nat → Nat → Nat → Nat → ℚ :=
  match mask with
  | some m => fun b h n s =>
      crossScoresRaw P cfg ap x latent b h n s - 10000 * (1 - maskExpandV m b h n s)
  | none => crossScoresRaw P cfg ap x latent

/-- The retained attention weights of QKVAttention_cross: F.softmax of the
masked scores over the key axis of length S (models.py line 128). -/
def crossAttnWeights (P : NumPrims) (cfg : Config) (ap : AttnP) (S : Nat)
    (x : Nat → Nat → Nat → ℚ) (latent : Nat → Nat → ℚ)
    (mask : Option (Nat → Nat → ℚ)) : Nat → Nat → Nat → Nat → ℚ :=
  fun b h n => softmaxAt P S (fun s2 => crossScores P cfg ap x latent mask b h n s2)

/-- Value semantics of QKVAttention_cross.forward (models.py lines 110-136):
weights times values, contracted over the key axis, transposed back and
with the head axes merged, so output feature f reads head f / W at inner
position f % W. -/
def crossAttnV (P : NumPrims) (cfg : Config) (ap : AttnP) (S : Nat)
    (x : Nat → Nat → Nat → ℚ) (latent : Nat → Nat → ℚ)
    (mask : Option (Nat → Nat → ℚ)) : Nat → Nat → Nat → ℚ :=
  fun b n f =>
    ∑ s ∈ Finset.range S,
      crossAttnWeights P cfg ap S x latent mask b (f / headWidth cfg ap) n s
        * crossV cfg ap x b s (f / headWidth cfg ap * headWidth cfg ap + f % headWidth cfg ap)

/-- The query projection of QKVAttention_self (models.py line 156):
in_features D. -/
def selfQ (cfg : Config) (ap : AttnP) (x : Nat → Nat → Nat → ℚ) : Nat → Nat → Nat → ℚ :=
  fun b s => linearApply cfg.D ap.proj_q (x b s)

/-- The key projection of QKVAttention_self (models.py line 156). -/
def selfK (cfg : Config) (ap : AttnP) (x : Nat → Nat → Nat → ℚ) : Nat → Nat → Nat → ℚ :=
  fun b s => linearApply cfg.D ap.proj_k (x b s)

/-- The value projection of QKVAttention_self (models.py line 156). -/
def selfV (cfg : Config) (ap : AttnP) (x : Nat → Nat → Nat → ℚ) : Nat → Nat → Nat → ℚ :=
  fun b s => linearApply cfg.D ap.proj_v (x b s)

/-- The scaled dot product scores of QKVAttention_self (models.py line 160):
entry (b, h, s, s2) contracts the head width axis and divides by sqrt of
the head width. -/
def selfScoresRaw (P : NumPrims) (cfg : Config) (ap : AttnP)
    (x : Nat → Nat → Nat → ℚ) : Nat → Nat → Nat → Nat → ℚ :=
  fun b h s s2 =>
    (∑ w ∈ Finset.range (headWidth cfg ap),
        selfQ cfg ap x b s (h * headWidth cfg ap + w)
          * selfK cfg ap x b s2 (h * headWidth cfg ap + w))
      / P.sqrt ((headWidth cfg ap : ℚ))

/-- The scores of QKVAttention_self after the optional masking (models.py
lines 161-163), exactly as in the cross variant. -/
def selfScores (P : NumPrims) (cfg : Config) (ap : AttnP)
    (x : Nat → Nat → Nat → ℚ) (mask : Option (Nat → Nat → ℚ)) :
    Nat → Nat → Nat → Nat → ℚ :=
  match mask with
  | some m => fun b h s s2 =>
      selfScoresRaw P cfg ap x b h s s2 - 10000 * (1 - maskExpandV m b h s s2)
  | none => selfScoresRaw P cfg ap x

/-- The retained attention weights of QKVAttention_self: F.softmax of the
scores over the key axis of length S (models.py line 165). -/
def selfAttnWeights (P : NumPrims) (cfg : Config) (ap : AttnP) (S : Nat)
    (x : Nat → Nat → Nat → ℚ) (mask : Option (Nat → Nat → ℚ)) :
    Nat → Nat → Nat → Nat → ℚ :=
  fun b h s => softmaxAt P S (fun s2 => selfScores P cfg ap x mask b h s s2)

/-- Value semantics of QKVAttention_self.forward (models.py lines 149-171). -/
def selfAttnV (P : NumPrims) (cfg : Config) (ap : AttnP) (S : Nat)
    (x : Nat → Nat → Nat → ℚ) (mask : Option (Nat → Nat → ℚ)) :
    Nat → Nat → Nat → ℚ :=
  fun b s f =>
    ∑ s2 ∈ Finset.range S,
      selfAttnWeights P cfg ap S x mask b (f / headWidth cfg ap) s s2
        * selfV cfg ap x b s2 (f / headWidth cfg ap * headWidth cfg ap + f % headWidth cfg ap)

/-- Parameters of a FeedForward module (models.py lines 176-179):
fc1 from D to ffw, fc2 from ffw back to D. -/
structure FFP where
  fc1 : LinearP
  fc2 : LinearP

/-- Value semantics of FeedForward.forward (models.py lines 182-184):
fc2 (gelu (fc1 x)) on one feature vector. -/
def feedForwardV (P : NumPrims) (cfg : Config) (fp : FFP) (x : Nat → ℚ) : Nat → ℚ :=
  linearApply cfg.ffw fp.fc2 (fun j => gelu P (linearApply cfg.D fp.fc1 x j))

/-- Scale and shift of one nn.LayerNorm instance of the Transformer. -/
structure NormP where
  gamma : Nat → ℚ
  beta : Nat → ℚ

/-- The residual plus normalization pattern of Transformer.forward:
norm (a + x) applied per latent position over the feature axis of
length d. -/
def addNorm (P : NumPrims) (d : Nat) (np : NormP) (a x : Nat → Nat → Nat → ℚ) :
    Nat → Nat → Nat → ℚ :=
  fun b n => nnLayerNorm P d np.gamma np.beta (fun f => a b n f + x b n f)

/-- Parameters of the Transformer (models.py lines 189-220): the embedding
module, the rank two latent parameter of shape [N, D], the cross attention
and feed forward pair of cross_attend_blocks, the shared self attention and
feed forward pair of layers, and the four nn.LayerNorm instances. -/
structure TransformerP where
  embed : EmbeddingsP
  latents : Nat → Nat → ℚ
  cross_attn : AttnP
  cross_ff : FFP
  self_attn : AttnP
  self_ff : FFP
  norm1 : NormP
  norm2 : NormP
  norm3 : NormP
  norm4 : NormP

/-- One latent processing round of Transformer.forward (models.py lines
237-238): x = norm3 (self_attn (x, mask none) + x) then
x = norm4 (self_ff (x) + x), with the single shared self attention and
feed forward parameter instances; the key axis length inside the round is
the latent count N. -/
def procRound (P : NumPrims) (cfg : Config) (sa : AttnP) (sf : FFP) (n3 n4 : NormP)
    (x : Nat → Nat → Nat → ℚ) : Nat → Nat → Nat → ℚ :=
  let y := addNorm P cfg.D n3 (selfAttnV P cfg sa cfg.N x none) x
  addNorm P cfg.D n4 (fun b n f => feedForwardV P cfg sf (y b n) f) y

/-- The counted for loop of Transformer.forward (models.py lines 235-238),
as a structural recursion on the round count. -/
def procLoop (P : NumPrims) (cfg : Config) (sa : AttnP) (sf : FFP) (n3 n4 : NormP) :
    Nat → (Nat → Nat → Nat → ℚ) → Nat → Nat → Nat → ℚ
  | 0, x => x
  | k + 1, x => procLoop P cfg sa sf n3 n4 k (procRound P cfg sa sf n3 n4 x)

/-- The same rounds driven by an explicit per round list of parameter
instances; used to state that the source loop is the special case of a
constant list. -/
def procLoopMulti (P : NumPrims) (cfg : Config) (rounds : List (AttnP × FFP)) (n3 n4 : NormP)
    (x : Nat → Nat → Nat → ℚ) : Nat → Nat → Nat → ℚ :=
  rounds.foldl (fun y r => procRound P cfg r.1 r.2 n3 n4 y) x

/-- The part of Transformer.forward before the loop (models.py lines
224-232): x = embed (input, seg); h = x.clone().detach(), which has the
same values as x; x = norm1 (cross_attn (h, latents, mask) + latents), the
latents residual broadcast over the batch; x = norm2 (cross_ff (x) + x). -/
def forwardPre (P : NumPrims) (cfg : Config) (tp : TransformerP) (S : Nat)
    (tokens segs : Nat → Nat → Nat) (mask : Option (Nat → Nat → ℚ)) :
    Nat → Nat → Nat → ℚ :=
  let x := embedV P cfg tp.embed tokens segs
  let h := x
  let x1 := addNorm P cfg.D tp.norm1 (crossAttnV P cfg tp.cross_attn S h tp.latents mask)
    (fun _ n => tp.latents n)
  addNorm P cfg.D tp.norm2 (fun b n f => feedForwardV P cfg tp.cross_ff (x1 b n) f) x1

/-- Value semantics of Transformer.forward (models.py lines 223-242).  The
loop bound is read as process_layers of the Config the Transformer was
constructed with, which is the documented intent; the source line 235
actually spells the bound cfg.process_layers with cfg a global name that is
never defined in the module, so the executed code raises NameError there. -/
def forwardV (P : NumPrims) (cfg : Config) (tp : TransformerP) (S : Nat)
    (tokens segs : Nat → Nat → Nat) (mask : Option (Nat → Nat → ℚ)) :
    Nat → Nat → Nat → ℚ :=
  procLoop P cfg tp.self_attn tp.self_ff tp.norm3 tp.norm4 cfg.process_layers
    (forwardPre P cfg tp S tokens segs mask)

/-! ## Component state: the retained attention scores -/

/-- The mutable state of one QKVAttention module: its learned parameters and
the scores field, initialized to None and overwritten by every forward call
(models.py lines 107 and 135). -/
structure AttnState where
  params : AttnP
  scores : Option (Nat → Nat → Nat → Nat → ℚ)

/-- QKVAttention_cross.forward as a state transformer: returns the output
and the module with its scores field overwritten by the softmaxed weights
(models.py line 135). -/
def crossAttnStep (P : NumPrims) (cfg : Config) (st : AttnState) (S : Nat)
    (x : Nat → Nat → Nat → ℚ) (latent : Nat → Nat → ℚ)
    (mask : Option (Nat → Nat → ℚ)) :
    (Nat → Nat → Nat → ℚ) × AttnState :=
  (crossAttnV P cfg st.params S x latent mask,
   { st with scores := some (crossAttnWeights P cfg st.params S x latent mask) })

/-- QKVAttention_self.forward as a state transformer (models.py line 170). -/
def selfAttnStep (P : NumPrims) (cfg : Config) (st : AttnState) (S : Nat)
    (x : Nat → Nat → Nat → ℚ) (mask : Option (Nat → Nat → ℚ)) :
    (Nat → Nat → Nat → ℚ) × AttnState :=
  (selfAttnV P cfg st.params S x mask,
   { st with scores := some (selfAttnWeights P cfg st.params S x mask) })

/-- The state of the whole Transformer: as TransformerP, but the two
attention modules carry their scores fields. -/
structure TransformerState where
  embed : EmbeddingsP
  latents : Nat → Nat → ℚ
  cross_attn : AttnState
  cross_ff : FFP
  self_attn : AttnState
  self_ff : FFP
  norm1 : NormP
  norm2 : NormP
  norm3 : NormP
  norm4 : NormP

/-- The learned parameters held by a TransformerState. -/
def stateParams (st : TransformerState) : TransformerP :=
  { embed := st.embed
    latents := st.latents
    cross_attn := st.cross_attn.params
    cross_ff := st.cross_ff
    self_attn := st.self_attn.params
    self_ff := st.self_ff
    norm1 := st.norm1
    norm2 := st.norm2
    norm3 := st.norm3
    norm4 := st.norm4 }

/-- One latent processing round as a state transformer, threading the self
attention module state through the loop. -/
def procRoundS (P : NumPrims) (cfg : Config) (sf : FFP) (n3 n4 : NormP)
    (p : (Nat → Nat → Nat → ℚ) × AttnState) : (Nat → Nat → Nat → ℚ) × AttnState :=
  let r := selfAttnStep P cfg p.2 cfg.N p.1 none
  let y := addNorm P cfg.D n3 r.1 p.1
  (addNorm P cfg.D n4 (fun b n f => feedForwardV P cfg sf (y b n) f) y, r.2)

/-- The loop of Transformer.forward as a state transformer. -/
def procLoopS (P : NumPrims) (cfg : Config) (sf : FFP) (n3 n4 : NormP) :
    Nat → (Nat → Nat → Nat → ℚ) × AttnState → (Nat → Nat → Nat → ℚ) × AttnState
  | 0, p => p
  | k + 1, p => procLoopS P cfg sf n3 n4 k (procRoundS P cfg sf n3 n4 p)

/-- Transformer.forward as a state transformer: the returned state records
the overwritten scores fields of the two attention modules; every other
field is passed through.  The output and the loop are those of forwardV. -/
def forwardS (P : NumPrims) (cfg : Config) (st : TransformerState) (S : Nat)
    (tokens segs : Nat → Nat → Nat) (mask : Option (Nat → Nat → ℚ)) :
    (Nat → Nat → Nat → ℚ) × TransformerState :=
  let x := embedV P cfg st.embed tokens segs
  let h := x
  let c := crossAttnStep P cfg st.cross_attn S h st.latents mask
  let x1 := addNorm P cfg.D st.norm1 c.1 (fun _ n => st.latents n)
  let x2 := addNorm P cfg.D st.norm2 (fun b n f => feedForwardV P cfg st.cross_ff (x1 b n) f) x1
  let r := procLoopS P cfg st.self_ff st.norm3 st.norm4 cfg.process_layers (x2, st.self_attn)
  (r.1, { st with cross_attn := c.2, self_attn := r.2 })

/-! ## Definitions written from the wording of the specification -/

/-- Follows the wording of section 4.7 of the specification: step 1 embeds
the inputs, step 2 sets x = norm1 (cross_attend (h, latents, mask) +
latents), step 3 sets x = norm2 (feed_forward (x) + x), step 4 repeats
process_layers times x = norm3 (self_attend (x, mask none) + x) followed by
x = norm4 (self_feed_forward (x) + x), step 5 returns the final x. -/
def specForward (P : NumPrims) (cfg : Config) (tp : TransformerP) (S : Nat)
    (tokens segs : Nat → Nat → Nat) (mask : Option (Nat → Nat → ℚ)) :
    Nat → Nat → Nat → ℚ :=
  let h := embedV P cfg tp.embed tokens segs
  let x1 := fun b n => nnLayerNorm P cfg.D tp.norm1.gamma tp.norm1.beta
    (fun f => crossAttnV P cfg tp.cross_attn S h tp.latents mask b n f + tp.latents n f)
  let x2 := fun b n => nnLayerNorm P cfg.D tp.norm2.gamma tp.norm2.beta
    (fun f => feedForwardV P cfg tp.cross_ff (x1 b n) f + x1 b n f)
  let round := fun (x : Nat → Nat → Nat → ℚ) =>
    let y := fun b n => nnLayerNorm P cfg.D tp.norm3.gamma tp.norm3.beta
      (fun f => selfAttnV P cfg tp.self_attn cfg.N x none b n f + x b n f)
    fun b n => nnLayerNorm P cfg.D tp.norm4.gamma tp.norm4.beta
      (fun f => feedForwardV P cfg tp.self_ff (y b n) f + y b n f)
  round^[cfg.process_layers] x2

/-- Follows the wording of claim C5 and of section 4.3 of the specification:
the layer normalization of the elementwise sum of the projected factorized
token embedding, the position embedding at index s, and the segment
embedding at the segment id. -/
def embedSpecC5 (P : NumPrims) (cfg : Config) (ep : EmbeddingsP)
    (tokens segs : Nat → Nat → Nat) : Nat → Nat → Nat → ℚ :=
  fun b s =>
    nnLayerNorm P cfg.hidden ep.norm_gamma ep.norm_beta
      (fun f => linearApply cfg.embedding ep.tok_embed2 (ep.tok_embed1 (tokens b s)) f
        + ep.pos_embed s f + ep.seg_embed (segs b s) f)

/-! ## Shape computation lemmas -/

theorem broadcastDim_one_left (b : Nat) : broadcastDim 1 b = some b := by
  match b with
  | 0 => rfl
  | 1 => rfl
  | (n + 2) => rfl

theorem broadcastDim_one_right (a : Nat) : broadcastDim a 1 = some a := by
  match a with
  | 0 => rfl
  | 1 => rfl
  | (n + 2) => rfl

theorem broadcastDim_self (a : Nat) : broadcastDim a a = some a := by
  match a with
  | 0 => rfl
  | 1 => rfl
  | (n + 2) => simp [broadcastDim]

theorem broadcastRev_self (l : List Nat) : broadcastRev l l = some l := by
  induction l with
  | nil => rfl
  | cons a t ih => simp [broadcastRev, broadcastDim_self, ih]

theorem broadcastShape_self (s : Shape) : broadcastShape s s = some s := by
  simp [broadcastShape, broadcastRev_self]

theorem broadcastShape_latents (B n d : Nat) :
    broadcastShape [B, n, d] [n, d] = some [B, n, d] := by
  simp [broadcastShape, broadcastRev, broadcastDim_self]

theorem broadcastShape_mask (B H n S : Nat) :
    broadcastShape [B, H, n, S] [B, 1, 1, S] = some [B, H, n, S] := by
  simp [broadcastShape, broadcastRev, broadcastDim_self, broadcastDim_one_right]

theorem linearShape_3 (a b i o : Nat) : linearShape i o [a, b, i] = some [a, b, o] := by
  simp [linearShape]

theorem linearShape_2 (a i o : Nat) : linearShape i o [a, i] = some [a, o] := by
  simp [linearShape]

theorem linearShape_3_ne (a b d i o : Nat) (h : d ≠ i) : linearShape i o [a, b, d] = none := by
  simp [linearShape, h]

theorem splitLastShape_3 (H a b d : Nat) (h1 : 0 < H) (h2 : H ∣ d) :
    splitLastShape H [a, b, d] = some [a, b, H, d / H] := by
  simp [splitLastShape, h1, Nat.mul_div_cancel' h2]

theorem splitLastShape_2 (H a d : Nat) (h1 : 0 < H) (h2 : H ∣ d) :
    splitLastShape H [a, d] = some [a, H, d / H] := by
  simp [splitLastShape, h1, Nat.mul_div_cancel' h2]

theorem splitLastShape_2_none (H a d : Nat) (h : ¬ (0 < H ∧ H ∣ d)) :
    splitLastShape H [a, d] = none := by
  have h2 : ¬ (0 < H ∧ H * (d / H) = d) := by
    rintro ⟨hp, he⟩
    exact h ⟨hp, ⟨d / H, he.symm⟩⟩
  simp [splitLastShape, h2]

theorem transposeNeg23Shape_3 (a b c : Nat) : transposeNeg23Shape [a, b, c] = some [b, a, c] := rfl

theorem transposeNeg23Shape_4 (a b c d : Nat) :
    transposeNeg23Shape [a, b, c, d] = some [a, c, b, d] := rfl

theorem transposeLast2Shape_4 (a b c d : Nat) :
    transposeLast2Shape [a, b, c, d] = some [a, b, d, c] := rfl

theorem transposeShape12_4 (a b c d : Nat) :
    transposeShape12 [a, b, c, d] = some [a, c, b, d] := rfl

theorem mergeLast2Shape_4 (a b h w : Nat) : mergeLast2Shape [a, b, h, w] = some [a, b, h * w] := rfl

theorem matmulShape_broadcast_q (H n W B S : Nat) :
    matmulShape [H, n, W] [B, H, W, S] = some [B, H, n, S] := by
  simp [matmulShape, broadcastRev, broadcastDim_self]

theorem matmulShape_4 (a b c d e : Nat) :
    matmulShape [a, b, c, d] [a, b, d, e] = some [a, b, c, e] := by
  simp [matmulShape, broadcastRev, broadcastDim_self]

theorem softmaxShape_4 (a b c d : Nat) : softmaxShape [a, b, c, d] = some [a, b, c, d] := rfl

theorem layerNormShape_3 (a b d : Nat) : layerNormShape d [a, b, d] = some [a, b, d] := by
  simp [layerNormShape]

theorem embeddingLookupShape_pos {numEmb B S : Nat} {ids : Fin B → Fin S → Nat}
    (width : Nat) (h : ∀ i : Fin B, ∀ j : Fin S, ids i j < numEmb) :
    embeddingLookupShape numEmb width B S ids = some [B, S, width] := by
  rw [embeddingLookupShape, if_pos h]

theorem embedO_some (cfg : Config) (B S : Nat) (tokens segs : Fin B → Fin S → Nat)
    (htok : ∀ i : Fin B, ∀ j : Fin S, tokens i j < cfg.vocab_size)
    (hseg : ∀ i : Fin B, ∀ j : Fin S, segs i j < cfg.n_segments)
    (hS : S ≤ cfg.max_len) :
    embedO cfg B S tokens segs = some [B, S, cfg.hidden] := by
  have hpos : ∀ i : Fin B, ∀ j : Fin S, (fun (_ : Fin B) (j : Fin S) => j.val) i j < cfg.max_len :=
    fun _ j => lt_of_lt_of_le j.isLt hS
  rw [embedO, embeddingLookupShape_pos cfg.embedding htok,
    embeddingLookupShape_pos cfg.hidden hpos, embeddingLookupShape_pos cfg.hidden hseg]
  simp [linearShape_3, broadcastShape_self, layerNormShape_3]

theorem crossAttentionShapeO_some (cfg : Config) (heads B S n : Nat) (mask : Option Shape)
    (h1 : 0 < heads) (h2 : heads ∣ cfg.D) (hm : mask = none ∨ mask = some [B, S]) :
    crossAttentionShapeO cfg heads [B, S, cfg.C] [n, cfg.D] mask = some [B, n, cfg.D] := by
  rcases hm with hm | hm <;> subst hm <;>
    simp [crossAttentionShapeO, linearShape_2, linearShape_3,
      splitLastShape_2 heads n cfg.D h1 h2, splitLastShape_3 heads B S cfg.D h1 h2,
      transposeNeg23Shape_3, transposeNeg23Shape_4, transposeLast2Shape_4,
      matmulShape_broadcast_q, matmulShape_4, maskExpandShape, broadcastShape_mask,
      softmaxShape_4, transposeShape12_4, mergeLast2Shape_4, Nat.mul_div_cancel' h2]

theorem selfAttentionShapeO_some (cfg : Config) (heads B n : Nat)
    (h1 : 0 < heads) (h2 : heads ∣ cfg.D) :
    selfAttentionShapeO cfg heads [B, n, cfg.D] none = some [B, n, cfg.D] := by
  simp [selfAttentionShapeO, linearShape_3,
    splitLastShape_3 heads B n cfg.D h1 h2,
    transposeNeg23Shape_4, transposeLast2Shape_4, matmulShape_4,
    softmaxShape_4, transposeShape12_4, mergeLast2Shape_4, Nat.mul_div_cancel' h2]

theorem feedForwardShape_3 (cfg : Config) (a b : Nat) :
    feedForwardShape cfg [a, b, cfg.D] = some [a, b, cfg.D] := by
  simp [feedForwardShape, linearShape_3]

theorem roundShapeO_some (cfg : Config) (B : Nat)
    (h1 : 0 < cfg.latent_heads) (h2 : cfg.latent_heads ∣ cfg.D) :
    roundShapeO cfg [B, cfg.N, cfg.D] = some [B, cfg.N, cfg.D] := by
  simp [roundShapeO, selfAttentionShapeO_some cfg cfg.latent_heads B cfg.N h1 h2,
    broadcastShape_self, layerNormShape_3, feedForwardShape_3]

theorem iterateOptO_fixed (f : Shape → Option Shape) (s : Shape) (hf : f s = some s) :
    ∀ k : Nat, iterateOptO f k s = some s := by
  intro k
  induction k with
  | zero => rfl
  | succ m ih => simp [iterateOptO, hf, ih]

theorem embedO_cases (cfg : Config) (B S : Nat) (tokens segs : Fin B → Fin S → Nat) :
    embedO cfg B S tokens segs = none ∨ embedO cfg B S tokens segs = some [B, S, cfg.hidden] := by
  by_cases h1 : ∀ i : Fin B, ∀ j : Fin S, tokens i j < cfg.vocab_size
  · by_cases h2 : ∀ i : Fin B, ∀ j : Fin S, (fun (_ : Fin B) (j : Fin S) => j.val) i j < cfg.max_len
    · by_cases h3 : ∀ i : Fin B, ∀ j : Fin S, segs i j < cfg.n_segments
      · right
        rw [embedO, embeddingLookupShape_pos cfg.embedding h1,
          embeddingLookupShape_pos cfg.hidden h2, embeddingLookupShape_pos cfg.hidden h3]
        simp [linearShape_3, broadcastShape_self, layerNormShape_3]
      · left
        rw [embedO, embeddingLookupShape_pos cfg.embedding h1,
          embeddingLookupShape_pos cfg.hidden h2]
        simp [embeddingLookupShape, h3, linearShape_3]
    · left
      rw [embedO, embeddingLookupShape_pos cfg.embedding h1]
      simp [embeddingLookupShape, h2, linearShape_3]
  · left
    simp [embedO, embeddingLookupShape, h1]

/-! ## Claim theorems -/

/-- C1, theorem on the modelled intent (see the doc comments of forwardO
and forwardV for the slip in the source loop bound, which makes every real
call raise before returning): for every valid input batch of token ids and
segment ids of shape [B, S] (with optional mask of shape [B, S]), the
intended Transformer.forward returns a tensor of shape exactly [B, N, D],
where N and D come from the configuration, independent of the input
sequence length S.  Validity comprises the in range indices and sequence
length of the embedding, the hidden width matching C, and positive head
counts dividing D. -/
theorem forwardO_output_shape (cfg : Config) (B S : Nat)
    (tokens segs : Fin B → Fin S → Nat) (maskSh : Option Shape)
    (hHC : cfg.hidden = cfg.C)
    (hch : 0 < cfg.cross_heads) (hcd : cfg.cross_heads ∣ cfg.D)
    (hlh : 0 < cfg.latent_heads) (hld : cfg.latent_heads ∣ cfg.D)
    (htok : ∀ i : Fin B, ∀ j : Fin S, tokens i j < cfg.vocab_size)
    (hseg : ∀ i : Fin B, ∀ j : Fin S, segs i j < cfg.n_segments)
    (hS : S ≤ cfg.max_len)
    (hmask : maskSh = none ∨ maskSh = some [B, S]) :
    forwardO cfg B S tokens segs maskSh = some [B, cfg.N, cfg.D] := by
  rw [forwardO, embedO_some cfg B S tokens segs htok hseg hS, hHC]
  simp [crossAttentionShapeO_some cfg cfg.cross_heads B S cfg.N maskSh hch hcd hmask,
    broadcastShape_latents, layerNormShape_3, feedForwardShape_3, broadcastShape_self,
    iterateOptO_fixed _ _ (roundShapeO_some cfg B hlh hld)]

/-- Witness for C1 at a concrete configuration and input. -/
theorem forwardO_output_shape_witness :
    forwardO
      { vocab_size := 4, hidden := 4, embedding := 2, max_len := 3, n_segments := 2,
        C := 4, N := 2, D := 4, cross_heads := 2, latent_heads := 2, ffw := 3,
        process_layers := 2 }
      1 2 (fun _ _ => 1) (fun _ _ => 0) (some [1, 2]) = some [1, 2, 4] :=
  forwardO_output_shape _ 1 2 _ _ _ rfl (by decide) (by decide) (by decide) (by decide)
    (by decide) (by decide) (by decide) (Or.inr rfl)

/-- C10: the embedded sequence has feature width hidden while the cross
attention key and value projections accept width C, so for every
configuration with hidden not equal to C, Transformer.forward fails on
every input. -/
theorem forwardO_none_of_hidden_ne_C (cfg : Config) (hne : cfg.hidden ≠ cfg.C)
    (B S : Nat) (tokens segs : Fin B → Fin S → Nat) (maskSh : Option Shape) :
    forwardO cfg B S tokens segs maskSh = none := by
  rcases embedO_cases cfg B S tokens segs with h | h
  · simp [forwardO, h]
  · rw [forwardO, h]
    have hcross : crossAttentionShapeO cfg cfg.cross_heads [B, S, cfg.hidden]
        [cfg.N, cfg.D] maskSh = none := by
      simp [crossAttentionShapeO, linearShape_2, linearShape_3_ne _ _ _ _ _ hne]
    simp [hcross]

/-- Witness for C10 at a concrete configuration with hidden 3 and C 4. -/
theorem forwardO_none_of_hidden_ne_C_witness :
    forwardO
      { vocab_size := 4, hidden := 3, embedding := 2, max_len := 3, n_segments := 2,
        C := 4, N := 2, D := 4, cross_heads := 2, latent_heads := 2, ffw := 3,
        process_layers := 2 }
      1 1 (fun _ _ => 1) (fun _ _ => 0) none = none :=
  forwardO_none_of_hidden_ne_C _ (by decide) 1 1 _ _ none

theorem splitLastShape_3_none (H a b d : Nat) (h : ¬ (0 < H ∧ H ∣ d)) :
    splitLastShape H [a, b, d] = none := by
  have h2 : ¬ (0 < H ∧ H * (d / H) = d) := by
    rintro ⟨hp, he⟩
    exact h ⟨hp, ⟨d / H, he.symm⟩⟩
  simp [splitLastShape, h2]

theorem crossAttentionShapeO_none_split (cfg : Config) (heads B S n : Nat)
    (h : ¬ (0 < heads ∧ heads ∣ cfg.D)) :
    crossAttentionShapeO cfg heads [B, S, cfg.C] [n, cfg.D] none = none := by
  simp [crossAttentionShapeO, linearShape_2, linearShape_3,
    splitLastShape_2_none heads n cfg.D h]

theorem selfAttentionShapeO_none_split (cfg : Config) (heads B n : Nat)
    (h : ¬ (0 < heads ∧ heads ∣ cfg.D)) :
    selfAttentionShapeO cfg heads [B, n, cfg.D] none = none := by
  simp [selfAttentionShapeO, linearShape_3, splitLastShape_3_none heads B n cfg.D h]

/-- C7, counterexample to the claim as stated: with C 3, D 4 and two cross
attention heads, the head count does not divide C, yet the cross attention
computation is well-defined (the split acts on the projected width D). -/
theorem cross_defined_without_C_dvd :
    (crossAttentionShapeO { C := 3, D := 4 } 2 [1, 1, 3] [1, 4] none).isSome = true
      ∧ ¬ (2 ∣ 3) := by decide

/-- C7 as amended: the cross attention computation on an input of width C
and latents of width D is well-defined exactly when the head count is
positive and divides D (each head has width D divided by the head count),
and likewise self attention on width D requires its head count to
divide D. -/
theorem attention_defined_iff_heads_dvd_D (cfg : Config) (heads B S n : Nat) :
    ((crossAttentionShapeO cfg heads [B, S, cfg.C] [n, cfg.D] none).isSome = true
        ↔ (0 < heads ∧ heads ∣ cfg.D))
    ∧ ((selfAttentionShapeO cfg heads [B, n, cfg.D] none).isSome = true
        ↔ (0 < heads ∧ heads ∣ cfg.D)) := by
  constructor
  · constructor
    · intro h
      by_contra hc
      rw [crossAttentionShapeO_none_split cfg heads B S n hc] at h
      simp at h
    · rintro ⟨h1, h2⟩
      rw [crossAttentionShapeO_some cfg heads B S n none h1 h2 (Or.inl rfl)]
      rfl
  · constructor
    · intro h
      by_contra hc
      rw [selfAttentionShapeO_none_split cfg heads B n hc] at h
      simp at h
    · rintro ⟨h1, h2⟩
      rw [selfAttentionShapeO_some cfg heads B n h1 h2]
      rfl

/-- C8, counterexample to the claim as stated: with an empty batch and
sequence length 2 exceeding max_len 1, every present index is in range, so
the embedding succeeds although the claim predicts failure. -/
theorem embed_succeeds_emptybatch_long_seq :
    embedO { vocab_size := 4, hidden := 2, embedding := 2, max_len := 1, n_segments := 2 }
        0 2 (fun _ _ => 0) (fun _ _ => 0) ≠ none
      ∧ (1 : Nat) < 2 := by decide

/-- C8 as amended: the embedding fails exactly when some token id is out of
the vocabulary table, some segment id is out of the segment table, or the
batch is nonempty and the sequence length exceeds the maximum position
count (with an empty batch no position is ever looked up). -/
theorem embed_none_iff (cfg : Config) (B S : Nat) (tokens segs : Fin B → Fin S → Nat) :
    embedO cfg B S tokens segs = none ↔
      (∃ i : Fin B, ∃ j : Fin S, cfg.vocab_size ≤ tokens i j)
      ∨ (∃ i : Fin B, ∃ j : Fin S, cfg.n_segments ≤ segs i j)
      ∨ (0 < B ∧ cfg.max_len < S) := by
  by_cases h1 : ∀ i : Fin B, ∀ j : Fin S, tokens i j < cfg.vocab_size
  · by_cases h2 : ∀ i : Fin B, ∀ j : Fin S, (fun (_ : Fin B) (j : Fin S) => j.val) i j < cfg.max_len
    · by_cases h3 : ∀ i : Fin B, ∀ j : Fin S, segs i j < cfg.n_segments
      · have he : embedO cfg B S tokens segs = some [B, S, cfg.hidden] := by
          rw [embedO, embeddingLookupShape_pos cfg.embedding h1,
            embeddingLookupShape_pos cfg.hidden h2, embeddingLookupShape_pos cfg.hidden h3]
          simp [linearShape_3, broadcastShape_self, layerNormShape_3]
        rw [he]
        constructor
        · intro hc
          exact absurd hc (by simp)
        · rintro (⟨i, j, hij⟩ | ⟨i, j, hij⟩ | ⟨hB, hS⟩)
          · exact absurd (h1 i j) (not_lt.mpr hij)
          · exact absurd (h3 i j) (not_lt.mpr hij)
          · exact absurd (h2 ⟨0, hB⟩ ⟨cfg.max_len, hS⟩) (lt_irrefl cfg.max_len)
      · have he : embedO cfg B S tokens segs = none := by
          rw [embedO, embeddingLookupShape_pos cfg.embedding h1,
            embeddingLookupShape_pos cfg.hidden h2]
          simp [embeddingLookupShape, h3, linearShape_3]
        rw [he]
        constructor
        · intro _
          refine Or.inr (Or.inl ?_)
          rcases not_forall.mp h3 with ⟨i, hi⟩
          rcases not_forall.mp hi with ⟨j, hj⟩
          exact ⟨i, j, not_lt.mp hj⟩
        · intro _
          rfl
    · have he : embedO cfg B S tokens segs = none := by
        rw [embedO, embeddingLookupShape_pos cfg.embedding h1]
        simp [embeddingLookupShape, h2, linearShape_3]
      rw [he]
      constructor
      · intro _
        refine Or.inr (Or.inr ?_)
        rcases not_forall.mp h2 with ⟨i, hi⟩
        rcases not_forall.mp hi with ⟨j, hj⟩
        exact ⟨i.pos, lt_of_le_of_lt (not_lt.mp hj) j.isLt⟩
      · intro _
        rfl
  · have he : embedO cfg B S tokens segs = none := by
      simp [embedO, embeddingLookupShape, h1]
    rw [he]
    constructor
    · intro _
      refine Or.inl ?_
      rcases not_forall.mp h1 with ⟨i, hi⟩
      rcases not_forall.mp hi with ⟨j, hj⟩
      exact ⟨i, j, not_lt.mp hj⟩
    · intro _
      rfl

/-- C4: in cross attention, a supplied mask is broadcast across heads and
query positions and exactly 10000 * (1 - mask) is subtracted from the
scaled dot product scores before the softmax over the key axis; with no
mask the scores are unchanged; and the softmax weights are formed from the
masked scores. -/
theorem cross_mask_subtracts_scores (P : NumPrims) (cfg : Config) (ap : AttnP) (S : Nat)
    (x : Nat → Nat → Nat → ℚ) (latent : Nat → Nat → ℚ) (m : Nat → Nat → ℚ)
    (mask : Option (Nat → Nat → ℚ)) (b h n s : Nat) :
    crossScores P cfg ap x latent (some m) b h n s
        = crossScoresRaw P cfg ap x latent b h n s - 10000 * (1 - m b s)
    ∧ crossScores P cfg ap x latent none b h n s = crossScoresRaw P cfg ap x latent b h n s
    ∧ crossAttnWeights P cfg ap S x latent mask b h n s
        = P.exp (crossScores P cfg ap x latent mask b h n s)
            / ∑ s2 ∈ Finset.range S, P.exp (crossScores P cfg ap x latent mask b h n s2) :=
  ⟨rfl, rfl, rfl⟩

/-- C5: the embedding is the layer normalization of the elementwise sum of
the projected factorized token embedding, the position embedding at indices
0..S-1 broadcast across the batch, and the segment embedding. -/
theorem embed_is_spec_formula (P : NumPrims) (cfg : Config) (ep : EmbeddingsP)
    (tokens segs : Nat → Nat → Nat) (b s f : Nat) :
    embedV P cfg ep tokens segs b s f = embedSpecC5 P cfg ep tokens segs b s f := rfl

/-- C6, counterexample to the claim as stated: the normalization the
Embeddings module applies in the forward pipeline is nn.LayerNorm with the
torch default epsilon 1e-5, so on a concrete input its output differs from
the claimed formula with epsilon 1e-12 (primitives instantiated with the
identity so both sides are concrete rationals). -/
theorem pipeline_norm_eps_counterexample :
    embedV ⟨fun x => x, fun x => x, fun x => x⟩ { hidden := 2, embedding := 1 }
        { tok_embed1 := fun _ _ => 0,
          tok_embed2 := ⟨fun _ _ => 0, fun o => if o = 0 then 0 else 2⟩,
          pos_embed := fun _ _ => 0, seg_embed := fun _ _ => 0,
          norm_gamma := fun _ => 1, norm_beta := fun _ => 0 }
        (fun _ _ => 0) (fun _ _ => 0) 0 0 0
      ≠ layerNormCore ⟨fun x => x, fun x => x, fun x => x⟩ 2 (1 / 1000000000000)
        (fun _ => 1) (fun _ => 0) (fun f => if f = 0 then (0 : ℚ) else 2) 0 := by
  norm_num [embedV, nnLayerNorm, layerNormCore, linearApply,
    Finset.sum_range_succ, Finset.sum_range_zero]

/-- C6 as amended: every layer normalization applied in the forward
pipeline is torch nn.LayerNorm and computes, per feature vector over the
last axis, scale * (x - mean) / sqrt (variance + eps) + shift with
eps = 1e-5 (the torch default), while the LayerNorm class defined in the
source with eps = 1e-12 matches the same formula but is instantiated
nowhere in the pipeline; the residual sub blocks of the Transformer apply
exactly that nn.LayerNorm to the residual sum. -/
theorem pipeline_norm_eps_corrected (P : NumPrims) (d : Nat) (w bia x : Nat → ℚ) (i : Nat)
    (np : NormP) (a y : Nat → Nat → Nat → ℚ) (b n : Nat) :
    nnLayerNorm P d w bia x i = layerNormCore P d (1 / 100000) w bia x i
    ∧ layerNormModule P d w bia x i = layerNormCore P d (1 / 1000000000000) w bia x i
    ∧ addNorm P d np a y b n i
        = nnLayerNorm P d np.gamma np.beta (fun f => a b n f + y b n f) i := by
  refine ⟨?_, rfl, rfl⟩
  simp only [nnLayerNorm, layerNormCore]
  ring

theorem procLoop_eq_iterate (P : NumPrims) (cfg : Config) (sa : AttnP) (sf : FFP)
    (n3 n4 : NormP) : ∀ (k : Nat) (x : Nat → Nat → Nat → ℚ),
    procLoop P cfg sa sf n3 n4 k x = (fun y => procRound P cfg sa sf n3 n4 y)^[k] x := by
  intro k
  induction k with
  | zero => intro x; rfl
  | succ m ih =>
    intro x
    rw [procLoop, ih, Function.iterate_succ_apply]

theorem procLoop_eq_multi (P : NumPrims) (cfg : Config) (sa : AttnP) (sf : FFP)
    (n3 n4 : NormP) : ∀ (k : Nat) (x : Nat → Nat → Nat → ℚ),
    procLoop P cfg sa sf n3 n4 k x
      = procLoopMulti P cfg (List.replicate k (sa, sf)) n3 n4 x := by
  intro k
  induction k with
  | zero => intro x; rfl
  | succ m ih =>
    intro x
    rw [procLoop, ih, List.replicate_succ]
    rfl

/-- C2, theorem on the modelled intent (see the doc comment of forwardV for
the slip in the source loop bound): Transformer.forward computes exactly
the sequence of section 4.7 of the specification: embed; norm1 of cross
attention plus the latents; norm2 of the feed forward residual; then
process_layers identical self attention and feed forward rounds, returning
the final tensor. -/
theorem forwardV_matches_spec_sequence (P : NumPrims) (cfg : Config) (tp : TransformerP)
    (S : Nat) (tokens segs : Nat → Nat → Nat) (mask : Option (Nat → Nat → ℚ)) :
    forwardV P cfg tp S tokens segs mask = specForward P cfg tp S tokens segs mask := by
  rw [forwardV, procLoop_eq_iterate]
  rfl

/-- C3: the latent processing rounds of Transformer.forward all use the one
shared self attention and feed forward parameter instance: the source loop
equals iterating a single fixed round function process_layers times, and
equals the general per round parameter list semantics at the constant
list, so a change of the shared parameters changes every round the same
way. -/
theorem forward_rounds_weight_shared (P : NumPrims) (cfg : Config) (sa : AttnP) (sf : FFP)
    (n3 n4 : NormP) (k : Nat) (x : Nat → Nat → Nat → ℚ) (tp : TransformerP) (S : Nat)
    (tokens segs : Nat → Nat → Nat) (mask : Option (Nat → Nat → ℚ)) :
    procLoop P cfg sa sf n3 n4 k x = (fun y => procRound P cfg sa sf n3 n4 y)^[k] x
    ∧ procLoop P cfg sa sf n3 n4 k x = procLoopMulti P cfg (List.replicate k (sa, sf)) n3 n4 x
    ∧ forwardV P cfg tp S tokens segs mask
        = (fun y => procRound P cfg tp.self_attn tp.self_ff tp.norm3 tp.norm4 y)^[cfg.process_layers]
            (forwardPre P cfg tp S tokens segs mask) := by
  refine ⟨procLoop_eq_iterate P cfg sa sf n3 n4 k x, procLoop_eq_multi P cfg sa sf n3 n4 k x, ?_⟩
  rw [forwardV, procLoop_eq_iterate]

theorem procLoopS_fst (P : NumPrims) (cfg : Config) (sf : FFP) (n3 n4 : NormP) :
    ∀ (k : Nat) (p : (Nat → Nat → Nat → ℚ) × AttnState),
    (procLoopS P cfg sf n3 n4 k p).1 = procLoop P cfg p.2.params sf n3 n4 k p.1 := by
  intro k
  induction k with
  | zero => intro p; rfl
  | succ m ih =>
    intro p
    calc (procLoopS P cfg sf n3 n4 (m + 1) p).1
        = (procLoopS P cfg sf n3 n4 m (procRoundS P cfg sf n3 n4 p)).1 := rfl
      _ = procLoop P cfg (procRoundS P cfg sf n3 n4 p).2.params sf n3 n4 m
            (procRoundS P cfg sf n3 n4 p).1 := ih _
      _ = procLoop P cfg p.2.params sf n3 n4 (m + 1) p.1 := rfl

theorem procLoopS_params (P : NumPrims) (cfg : Config) (sf : FFP) (n3 n4 : NormP) :
    ∀ (k : Nat) (p : (Nat → Nat → Nat → ℚ) × AttnState),
    (procLoopS P cfg sf n3 n4 k p).2.params = p.2.params := by
  intro k
  induction k with
  | zero => intro p; rfl
  | succ m ih =>
    intro p
    calc (procLoopS P cfg sf n3 n4 (m + 1) p).2.params
        = (procLoopS P cfg sf n3 n4 m (procRoundS P cfg sf n3 n4 p)).2.params := rfl
      _ = (procRoundS P cfg sf n3 n4 p).2.params := ih _
      _ = p.2.params := rfl

/-- C9: a forward call neither changes any learned parameter nor depends on
the previously retained attention scores: its output equals the pure
forwardV of the parameters held by the incoming state (so the retained
scores fields, the only state it writes, are read by no downstream
computation), and the parameters extracted from the outgoing state are
those of the incoming state.  Inputs are values in this semantics and the
source applies no in place operation to them. -/
theorem forwardS_frame (P : NumPrims) (cfg : Config) (st : TransformerState) (S : Nat)
    (tokens segs : Nat → Nat → Nat) (mask : Option (Nat → Nat → ℚ)) :
    (forwardS P cfg st S tokens segs mask).1
        = forwardV P cfg (stateParams st) S tokens segs mask
    ∧ stateParams (forwardS P cfg st S tokens segs mask).2 = stateParams st := by
  constructor
  · show (procLoopS P cfg st.self_ff st.norm3 st.norm4 cfg.process_layers (_, st.self_attn)).1 = _
    rw [procLoopS_fst]
    rfl
  · show stateParams { st with
        cross_attn := (crossAttnStep P cfg st.cross_attn S
          (embedV P cfg st.embed tokens segs) st.latents mask).2,
        self_attn := (procLoopS P cfg st.self_ff st.norm3 st.norm4 cfg.process_layers
          (_, st.self_attn)).2 } = stateParams st
    simp only [stateParams, crossAttnStep, procLoopS_params]
